import Mathlib

/-!
Shallow embedding of the request pipeline of `user-agent-402` (src/index.js):
cache-key construction, format resolution, the `RateLimiter` durable object,
`chargedRequest` and the top-level worker `fetch`.  Definitions follow the
JavaScript source; external collaborators (the stripeflare middleware, the KV
cache store, the rate-limiter storage, the application handler) are supplied
as explicit inputs, and their observable effects (rate-limiter reads/writes,
handler invocations, charge calls, cache puts) are recorded in an event
structure.
-/

namespace UA402

/-! ### JavaScript string primitives

`Array.prototype.sort` without a comparator compares `String(element)` values
in UTF-16 code-unit order; `String([k, v])` is `k ++ "," ++ v`.  We model
strings' UTF-16 code-unit sequences and a lexicographic comparison on them.
-/

/-- The UTF-16 code units of one character: code points below `0x10000` are a
single unit, the rest a surrogate pair. -/
def utf16Char (c : Char) : List Nat :=
  let n := c.toNat
  if n < 65536 then [n]
  else [55296 + (n - 65536) / 1024, 56320 + (n - 65536) % 1024]

/-- The UTF-16 code units of a string. -/
def utf16Units (s : String) : List Nat :=
  s.data.flatMap utf16Char

/-- Lexicographic "less or equal" on code-unit sequences, the order used by
the comparator-less JS `sort`. -/
def lexLeB : List Nat → List Nat → Bool
  | [], _ => true
  | _ :: _, [] => false
  | a :: as, b :: bs => if a < b then true else if b < a then false else lexLeB as bs

/-! ### `application/x-www-form-urlencoded` serialization

`URLSearchParams.toString()` percent-encodes each UTF-8 byte except ASCII
alphanumerics and `*`, `-`, `.`, `_`; a space becomes `+`; hex digits are
uppercase.
-/

/-- The UTF-8 bytes of one character (RFC 3629), as natural numbers. -/
def utf8Bytes (c : Char) : List Nat :=
  let n := c.toNat
  if n < 128 then [n]
  else if n < 2048 then [192 + n / 64, 128 + n % 64]
  else if n < 65536 then [224 + n / 4096, 128 + (n / 64) % 64, 128 + n % 64]
  else [240 + n / 262144, 128 + (n / 4096) % 64, 128 + (n / 64) % 64, 128 + n % 64]

/-- Uppercase hexadecimal digit for `n < 16`. -/
def hexDigit (n : Nat) : Char :=
  if n < 10 then Char.ofNat (48 + n) else Char.ofNat (55 + n)

/-- Bytes the form-urlencoded serializer leaves verbatim: ASCII alphanumerics
and `*` (42), `-` (45), `.` (46), `_` (95). -/
def isFormSafeByte (b : Nat) : Bool :=
  (48 ≤ b && b ≤ 57) || (65 ≤ b && b ≤ 90) || (97 ≤ b && b ≤ 122) ||
    b == 42 || b == 45 || b == 46 || b == 95

/-- Serialization of one byte: safe bytes verbatim, space (32) as `+` (43),
anything else as `%XX`. -/
def encodeByte (b : Nat) : List Char :=
  if isFormSafeByte b then [Char.ofNat b]
  else if b == 32 then [Char.ofNat 43]
  else [Char.ofNat 37, hexDigit (b / 16), hexDigit (b % 16)]

/-- Form-urlencoding of one component string. -/
def formUrlEncode (s : String) : String :=
  String.mk ((s.data.flatMap utf8Bytes).flatMap encodeByte)

/-- Join a list of strings with a separator. -/
def joinSep (sep : String) : List String → String
  | [] => ""
  | [x] => x
  | x :: y :: rest => x ++ sep ++ joinSep sep (y :: rest)

/-- `URLSearchParams.toString()` on a list of (already appended) entries. -/
def serializeParams (l : List (String × String)) : String :=
  joinSep "&" (l.map (fun p => formUrlEncode p.1 ++ "=" ++ formUrlEncode p.2))

/-! ### The entry sort of `createCacheKey` -/

/-- `String([key, value])`: the string a comparator-less JS sort compares
array entries by — key and value joined with a comma. -/
def entryStr (p : String × String) : String :=
  p.1 ++ "," ++ p.2

/-- UTF-16 code units of `entryStr`. -/
def entryKey (p : String × String) : List Nat :=
  utf16Units (entryStr p)

/-- The comparison performed by `Array.from(searchParams.entries()).sort()`
(src/index.js:167). -/
def entryLe (p q : String × String) : Prop :=
  lexLeB (entryKey p) (entryKey q) = true

instance : DecidableRel entryLe :=
  fun p q => inferInstanceAs (Decidable (lexLeB (entryKey p) (entryKey q) = true))

/-- The sort at src/index.js:167.  ECMAScript 2019 requires `sort` to be
stable; insertion sort with `entryLe` is the stable sort for that
comparator. -/
def sortEntries (l : List (String × String)) : List (String × String) :=
  List.insertionSort entryLe l

/-- `createCacheKey` (src/index.js:165-172): sort the query entries, rebuild
the query string, and prepend version and format.  `config.version` is passed
explicitly. -/
def createCacheKey (version : Nat) (pathname : String)
    (searchParams : List (String × String)) (ext : String) : String :=
  let query := serializeParams (sortEntries searchParams)
  let path := if query = "" then pathname else pathname ++ "?" ++ query
  toString version ++ ":" ++ ext ++ ":" ++ path

/-! ### Format resolution and path normalization -/

/-- Whether `pat` occurs at the head of `s`. -/
def startsWithL : List Char → List Char → Bool
  | [], _ => true
  | _ :: _, [] => false
  | p :: ps, c :: cs => (p == c) && startsWithL ps cs

/-- Whether `pat` occurs anywhere in the list (JS `String.includes`). -/
def containsL (pat : List Char) : List Char → Bool
  | [] => startsWithL pat []
  | c :: cs => startsWithL pat (c :: cs) || containsL pat cs

/-- JS `s.includes(pat)`. -/
def containsSubstr (s pat : String) : Bool :=
  containsL pat.data s.data

/-- JS `s.endsWith(suf)`. -/
def strEndsWith (s suf : String) : Bool :=
  startsWithL suf.data.reverse s.data.reverse

/-- Remove the last `n` characters. -/
def dropRightStr (s : String) (n : Nat) : String :=
  String.mk (s.data.take (s.data.length - n))

/-- `getResponseFormat` (src/index.js:149-160): explicit path extension wins,
then the `Accept` header, defaulting to markdown.  The header is `none` when
absent (JS reads it as `""`). -/
def getResponseFormat (accept : Option String) (pathname : String) : String :=
  if strEndsWith pathname ".html" then "html"
  else if strEndsWith pathname ".md" then "md"
  else if containsSubstr (match accept with | some a => a | none => "") "text/html" then "html"
  else "md"

/-- The extension strip at src/index.js:278-280:
`pathname.replace(/\.(html|md)$/, "")` guarded by the same `endsWith` tests. -/
def stripFormatSuffix (pathname : String) : String :=
  if strEndsWith pathname ".html" then dropRightStr pathname 5
  else if strEndsWith pathname ".md" then dropRightStr pathname 3
  else pathname

/-- First-occurrence string replacement: JS `String.replace` with a string
pattern (the `$`-substitution JS performs inside the replacement string is
not modelled; no claim depends on the produced HTML text). -/
def replaceFirstL (pat repl : List Char) : List Char → List Char
  | [] => []
  | c :: cs =>
    if startsWithL pat (c :: cs) then repl ++ (c :: cs).drop pat.length
    else c :: replaceFirstL pat repl cs

/-- JS `s.replace(pat, repl)` for string patterns. -/
def replaceFirst (s pat repl : String) : String :=
  String.mk (replaceFirstL pat.data repl.data s.data)

/-- `markdownToHtml` (src/index.js:177-179): substitute the markdown into the
imported `result.html` template at the first occurrence of the placeholder. -/
def markdownToHtml (resultHtml markdown : String) : String :=
  replaceFirst resultHtml "\x7b\x7bresult\x7d\x7d" markdown

/-! ### Data model

The request, the stripeflare middleware result (src/types.d.ts `StripeUser`,
`StripeSession`, `StripeResult`), the handler response as far as the pipeline
inspects it, and the merged gateway configuration (src/index.js:41-49).
-/

/-- A user row as resolved by the middleware (src/types.d.ts `StripeUser`);
only the fields the pipeline reads. -/
structure UserR where
  balance : Int
  client_reference_id : Option String
  access_token : String
deriving DecidableEq, Repr

/-- A stripeflare session (src/types.d.ts `StripeSession`).  The `charge`
operation is external; its result is an oracle input of `chargedRequest`.
`user` is an `Option` because the code tests its truthiness
(src/index.js:290, 452). -/
structure SessionR where
  userClient : Bool
  user : Option UserR
deriving DecidableEq, Repr

/-- Result of `stripeBalanceMiddleware` (src/types.d.ts `StripeResult`); a
middleware short-circuit response is represented by its status only. -/
structure StripeResultR where
  response : Option Nat
  session : Option SessionR
deriving DecidableEq, Repr

/-- The application handler's response, as far as the pipeline inspects it:
the status, the value of the `X-Price` header after JS `Number` parsing
(`some p` when the header is present and numeric — `Number` parsing itself is
abstracted to its result — `none` when absent or non-numeric,
src/index.js:444-448), the `Cache-Control` header, and the body text. -/
structure HandlerResp where
  status : Nat
  xPrice : Option Int
  cacheControl : Option String
  body : String
deriving DecidableEq, Repr

/-- The parts of an incoming request the pipeline reads. -/
structure RequestR where
  method : String
  pathname : String
  searchParams : List (String × String)
  accept : Option String
  cfConnectingIp : Option String
deriving DecidableEq, Repr

/-- Merged gateway configuration (src/index.js:41-49); `expirationTtl` is only
forwarded to KV `put` options and is not recorded in the event trace. -/
structure WorkerCfg where
  version : Nat
  priceCredit : Int
  freeRateLimit : Nat
  freeRateLimitResetSeconds : Nat
deriving DecidableEq, Repr

/-- The defaults of src/index.js:41-49. -/
def defaultCfg : WorkerCfg :=
  { version := 1, priceCredit := 1, freeRateLimit := 10, freeRateLimitResetSeconds := 3600 }

/-- The statically imported assets and bindings: the `result.html` template,
`homepage.html`, the `README.md` served via `ASSETS`, and whether the
`PATH_CACHE` binding is present (src/index.js:462 tests `env.PATH_CACHE`). -/
structure TemplateEnv where
  resultHtml : String
  homepageHtml : String
  readmeMd : String
  hasPathCache : Bool
deriving DecidableEq, Repr

/-! ### Observable effects -/

/-- One invocation of `stripeResult.session.charge` (src/index.js:453). -/
structure ChargeCall where
  amount : Int
  immediate : Bool
deriving DecidableEq, Repr

/-- One `env.PATH_CACHE.put` (src/index.js:469-476); the TTL and timestamp
metadata options are not recorded. -/
structure CachePut where
  key : String
  value : String
deriving DecidableEq, Repr

/-- Observable effects on the external collaborators during one execution:
rate-limiter storage reads and writes (tagged with the client id addressing
the per-identity durable object), `handler.fetch` invocations, charge calls
and cache puts, in order. -/
structure Events where
  rlReads : List String
  rlPuts : List (String × List Int)
  handlerCalls : Nat
  chargeCalls : List ChargeCall
  puts : List CachePut
deriving DecidableEq, Repr

/-- No effects. -/
def Events.empty : Events :=
  { rlReads := [], rlPuts := [], handlerCalls := 0, chargeCalls := [], puts := [] }

/-- Sequential composition of effect traces. -/
def Events.merge (e1 e2 : Events) : Events :=
  { rlReads := e1.rlReads ++ e2.rlReads
    rlPuts := e1.rlPuts ++ e2.rlPuts
    handlerCalls := e1.handlerCalls + e2.handlerCalls
    chargeCalls := e1.chargeCalls ++ e2.chargeCalls
    puts := e1.puts ++ e2.puts }

/-! ### The `RateLimiter` durable object -/

/-- The JSON body of a rate-limit response (src/types.d.ts `RateLimitData`). -/
structure RLResult where
  allowed : Bool
  remaining : Nat
  resetTime : Int
deriving DecidableEq, Repr

/-- One `RateLimiter.fetch` step: the returned data, the storage content after
the step, and whether `storage.put` ran. -/
structure RLOutcome where
  result : RLResult
  newStore : List Int
  didPut : Bool
deriving DecidableEq, Repr

/-- `Math.min(...recentRequests)` (src/index.js:107).  The denied branch only
evaluates it on a non-empty list whenever `freeRateLimit ≥ 1`; JS would give
`Infinity` on an empty list, a case unreachable under that hypothesis and
mapped to 0 here. -/
def listMin : List Int → Int
  | [] => 0
  | t :: ts => ts.foldl min t

/-- `resetWindow` (src/index.js:89): the window length in milliseconds. -/
def windowMs (cfg : WorkerCfg) : Int :=
  (cfg.freeRateLimitResetSeconds : Int) * 1000

/-- `recentRequests` (src/index.js:97-99): the stored timestamps that survive
pruning — exactly those strictly newer than `now - resetWindow`
(`timestamp > windowStart`). -/
def recentRequests (cfg : WorkerCfg) (stored : List Int) (now : Int) : List Int :=
  stored.filter (fun t => decide (now - windowMs cfg < t))

/-- `RateLimiter.fetch` (src/index.js:80-129) for a present `clientId`:
timestamps in milliseconds, `now` from `Date.now()`, `stored` the list under
`requests:clientId` (`[]` when absent). -/
def rateLimiterFetch (cfg : WorkerCfg) (stored : List Int) (now : Int) : RLOutcome :=
  let recent := recentRequests cfg stored now
  if cfg.freeRateLimit ≤ recent.length then
    { result := { allowed := false, remaining := 0
                  resetTime := listMin recent + windowMs cfg }
      newStore := stored
      didPut := false }
  else
    { result := { allowed := true
                  remaining := cfg.freeRateLimit - (recent.length + 1)
                  resetTime := now + windowMs cfg }
      newStore := recent ++ [now]
      didPut := true }

/-! ### `chargedRequest` -/

/-- The responses every `return` site of the pipeline can produce.  A
`payRequired` response (src/index.js:184-240) is represented by its message
variant, attached rate-limit data and format — its rendered body embeds a
locale-dependent date and is not modelled.  `err500` is the response built in
the top-level `catch` (src/index.js:418-421). -/
inductive PayMsg
  | rateLimitExceeded
  | insufficientBalance
deriving DecidableEq, Repr

/-- One constructor per `return` site of the pipeline. -/
inductive PipeResp
  | preflight
  | fromMiddleware (status : Nat)
  | cacheHit (value : String) (ext : String)
  | rootPage (content : String) (ext : String)
  | payRequired (msg : PayMsg) (rateLimitData : Option RLResult) (ext : String)
  | handled (status : Nat) (body : String) (ext : String)
  | err500 (msg : String)
deriving DecidableEq, Repr

instance {ε α : Type} [DecidableEq ε] [DecidableEq α] : DecidableEq (Except ε α) := fun a b =>
  match a, b with
  | Except.error e1, Except.error e2 =>
    if h : e1 = e2 then isTrue (by rw [h]) else isFalse (by intro hc; cases hc; exact h rfl)
  | Except.error _, Except.ok _ => isFalse (by intro hc; cases hc)
  | Except.ok _, Except.error _ => isFalse (by intro hc; cases hc)
  | Except.ok a1, Except.ok a2 =>
    if h : a1 = a2 then isTrue (by rw [h]) else isFalse (by intro hc; cases hc; exact h rfl)

/-- Oracle inputs for one execution of `chargedRequest`: the outcomes of the
awaited external calls it makes.  An `Except.error` is a rejected promise. -/
structure ChargedOracle where
  handlerResult : Except String HandlerResp
  chargeResult : Except String Bool
deriving DecidableEq, Repr

/-- `chargedRequest` (src/index.js:434-495).  The pathname is taken from the
request URL without suffix stripping (src/index.js:437).  Returns the
response (`Except.error` = the async function's promise rejected) and the
effect trace. -/
def chargedRequest (cfg : WorkerCfg) (tmpl : TemplateEnv) (request : RequestR)
    (stripeResult : StripeResultR) (oracle : ChargedOracle) :
    Except String PipeResp × Events :=
  let pathname := request.pathname
  let ext := getResponseFormat request.accept pathname
  match stripeResult.session with
  | none =>
    -- `ctx.user = stripeResult.session.user` (src/index.js:441) throws when
    -- the middleware produced no session.
    (Except.error "TypeError", Events.empty)
  | some session =>
    let user := session.user
    match oracle.handlerResult with
    | Except.error e => (Except.error e, { Events.empty with handlerCalls := 1 })
    | Except.ok response =>
      let priceCredit : Int :=
        match response.xPrice with
        | some p => p
        | none => cfg.priceCredit
      let resultText := response.body
      let puts : List CachePut :=
        if response.status == 200 && tmpl.hasPathCache then
          [ { key := createCacheKey cfg.version pathname request.searchParams "md"
              value := resultText }
          , { key := createCacheKey cfg.version pathname request.searchParams "html"
              value := markdownToHtml tmpl.resultHtml resultText } ]
        else []
      let finalContent :=
        if ext = "html" then markdownToHtml tmpl.resultHtml resultText else resultText
      let finish : List ChargeCall → Except String PipeResp × Events := fun cc =>
        (Except.ok (PipeResp.handled response.status finalContent ext)
        , { rlReads := [], rlPuts := [], handlerCalls := 1, chargeCalls := cc, puts := puts })
      if user.isSome && response.status == 200 then
        match oracle.chargeResult with
        | Except.error e =>
          -- the charge was invoked and its rejection aborts `chargedRequest`
          -- before the cache writes and the final response
          (Except.error e
          , { rlReads := [], rlPuts := [], handlerCalls := 1
              chargeCalls := [{ amount := priceCredit, immediate := true }], puts := [] })
        | Except.ok _ => finish [{ amount := priceCredit, immediate := true }]
      else
        finish []

/-! ### The top-level worker `fetch` -/

/-- JS `a || b` for an optional string `a` (the empty string is falsy). -/
def jsOrS (a : Option String) (b : String) : String :=
  match a with
  | some s => if s = "" then b else s
  | none => b

/-- User and rate-limit client id resolution (src/index.js:354-362).  When
`session.userClient` holds but `session.user` is missing, reading
`user.client_reference_id` throws (caught by the top-level handler). -/
def resolveUserClient (session : Option SessionR) (ip : Option String) :
    Except String (Option UserR × String) :=
  match session with
  | some s =>
    if s.userClient then
      match s.user with
      | some u => Except.ok (some u, jsOrS u.client_reference_id u.access_token)
      | none => Except.error "TypeError"
    else Except.ok (none, jsOrS ip "anonymous")
  | none => Except.ok (none, jsOrS ip "anonymous")

/-- Oracle inputs for one execution of the top-level `fetch`: the middleware
outcome, the KV cache content (value and timestamp metadata per key), whether
the handler exports `shouldRefresh` and the status it resolves with, the
rate-limiter storage for the request's client id, `Date.now()`, and the
oracles of the inner `chargedRequest`. -/
structure FetchOracle where
  middleware : Except String StripeResultR
  cacheGet : String → Option (String × Int)
  shouldRefreshStatus : Option Nat
  rlStore : List Int
  now : Int
  charged : ChargedOracle

/-- The outcome of one top-level `fetch`: the settled result of the promise
`fetch` returns (`Except.error` = a rejection that escaped to the host
runtime), the awaited effect trace, and the background `chargedRequest`
scheduled through `ctx.waitUntil` on the cache-hit refresh path, when any. -/
structure FetchResult where
  outcome : Except String PipeResp
  events : Events
  refreshTask : Option (Except String PipeResp × Events)
deriving DecidableEq, Repr

/-- The admission-control and charged-execution tail of the pipeline
(src/index.js:353-415): user and client-id resolution, the rate-limit check
for callers without positive balance, the balance check, and the final
(un-awaited) `chargedRequest`.  `ext` is the format resolved before path
normalization. -/
def pipelineAdmission (cfg : WorkerCfg) (tmpl : TemplateEnv) (request : RequestR)
    (o : FetchOracle) (stripeResult : StripeResultR) (ext : String) : FetchResult :=
  match resolveUserClient stripeResult.session request.cfConnectingIp with
  | Except.error e =>
    { outcome := Except.ok (PipeResp.err500 e), events := Events.empty
      refreshTask := none }
  | Except.ok (user, clientId) =>
    let afterRl : Events → FetchResult := fun ev =>
      -- balance check (src/index.js:397-409)
      match user with
      | some u =>
        if u.balance < cfg.priceCredit then
          { outcome := Except.ok
              (PipeResp.payRequired PayMsg.insufficientBalance none ext)
            events := ev, refreshTask := none }
        else
          let co := chargedRequest cfg tmpl request stripeResult o.charged
          { outcome := co.1, events := ev.merge co.2, refreshTask := none }
      | none =>
        let co := chargedRequest cfg tmpl request stripeResult o.charged
        { outcome := co.1, events := ev.merge co.2, refreshTask := none }
    let needRl : Bool :=
      match user with
      | some u => decide (u.balance ≤ 0)
      | none => true
    if needRl then
      if clientId = "" then
        -- the durable object answers 400 "Missing clientId"
        -- (src/index.js:84-86); `.json()` then rejects and the
        -- rejection is caught by the top-level handler
        { outcome := Except.ok (PipeResp.err500 "SyntaxError")
          events := Events.empty, refreshTask := none }
      else
        let rl := rateLimiterFetch cfg o.rlStore o.now
        let rlEvents : Events :=
          { rlReads := [clientId]
            rlPuts := if rl.didPut then [(clientId, rl.newStore)] else []
            handlerCalls := 0, chargeCalls := [], puts := [] }
        if rl.result.allowed = false then
          { outcome := Except.ok
              (PipeResp.payRequired PayMsg.rateLimitExceeded (some rl.result) ext)
            events := rlEvents, refreshTask := none }
        else afterRl rlEvents
    else afterRl Events.empty

/-- The default export's `fetch` (src/index.js:250-423).  The `try` block
catches rejections of every awaited step and converts them to a 500 response;
the final `return chargedRequest(...)` (src/index.js:411, reached through
`pipelineAdmission`) is not awaited inside the `try`, so a rejection of that
call settles the outer promise with the rejection itself. -/
def workerFetch (cfg : WorkerCfg) (tmpl : TemplateEnv) (request : RequestR)
    (o : FetchOracle) : FetchResult :=
  if request.method = "OPTIONS" then
    { outcome := Except.ok PipeResp.preflight, events := Events.empty, refreshTask := none }
  else
    match o.middleware with
    | Except.error e =>
      { outcome := Except.ok (PipeResp.err500 e), events := Events.empty, refreshTask := none }
    | Except.ok stripeResult =>
      match stripeResult.response with
      | some st =>
        { outcome := Except.ok (PipeResp.fromMiddleware st), events := Events.empty
          refreshTask := none }
      | none =>
        let ext := getResponseFormat request.accept request.pathname
        let pathname := stripFormatSuffix request.pathname
        let admission : FetchResult := pipelineAdmission cfg tmpl request o stripeResult ext
        if request.method = "GET" then
          let cacheKey := createCacheKey cfg.version pathname request.searchParams ext
          -- `if (cached.value)` (src/index.js:287): an empty cached string is
          -- falsy and treated as a miss
          let hitVal : Option (String × Int) :=
            match o.cacheGet cacheKey with
            | some (v, m) => if v = "" then none else some (v, m)
            | none => none
          match hitVal with
          | some (value, _) =>
            let refreshTask :=
              match stripeResult.session with
              | some session =>
                if session.userClient &&
                    (match session.user with
                     | some u => decide (u.balance ≠ 0) && decide (0 < u.balance)
                     | none => false) then
                  match o.shouldRefreshStatus with
                  | some st =>
                    -- `shouldRefreshResponse.ok` (src/index.js:306)
                    if 200 ≤ st ∧ st < 300 then
                      some (chargedRequest cfg tmpl request stripeResult o.charged)
                    else none
                  | none => none
                else none
              | none => none
            { outcome := Except.ok (PipeResp.cacheHit value ext), events := Events.empty
              refreshTask := refreshTask }
          | none =>
            if pathname = "/" then
              let content := if ext = "html" then tmpl.homepageHtml else tmpl.readmeMd
              { outcome := Except.ok (PipeResp.rootPage content ext), events := Events.empty
                refreshTask := none }
            else admission
        else admission

/-! ### Concrete fixtures for evaluated statements -/

/-- A sample `result.html` template together with homepage / README assets and
a present `PATH_CACHE` binding. -/
def tmplMain : TemplateEnv :=
  { resultHtml := "<h>\x7b\x7bresult\x7d\x7d</h>", homepageHtml := "home"
    readmeMd := "readme", hasPathCache := true }

/-- Middleware result: an authenticated paying session, balance 100. -/
def srPayer : StripeResultR :=
  { response := none
    session := some { userClient := true
                      user := some { balance := 100, client_reference_id := some "u1"
                                     access_token := "tok" } } }

/-- Middleware result: an authenticated session with balance 0. -/
def srZero : StripeResultR :=
  { response := none
    session := some { userClient := true
                      user := some { balance := 0, client_reference_id := some "u1"
                                     access_token := "tok" } } }

/-- A base fetch oracle: paying session, empty cache, no `shouldRefresh`
export, empty rate-limit store, handler answering 200 "hello". -/
def oracleBase : FetchOracle :=
  { middleware := Except.ok srPayer
    cacheGet := fun _ => none
    shouldRefreshStatus := none
    rlStore := []
    now := 1000
    charged := { handlerResult := Except.ok { status := 200, xPrice := none
                                              cacheControl := none, body := "hello" }
                 chargeResult := Except.ok true } }

/-! ## Supporting lemmas -/

theorem foldl_min_le_init (l : List Int) (a : Int) : l.foldl min a ≤ a := by
  induction l generalizing a with
  | nil => exact le_refl a
  | cons x xs ih => exact le_trans (ih (min a x)) (min_le_left a x)

theorem foldl_min_le_mem (l : List Int) (a x : Int) (hx : x ∈ l) : l.foldl min a ≤ x := by
  induction l generalizing a with
  | nil => cases hx
  | cons y ys ih =>
    rcases List.mem_cons.mp hx with h | h
    · subst h
      exact le_trans (foldl_min_le_init ys (min a x)) (min_le_right a x)
    · exact ih (min a y) h

theorem foldl_min_mem_or (l : List Int) (a : Int) :
    l.foldl min a = a ∨ l.foldl min a ∈ l := by
  induction l generalizing a with
  | nil => exact Or.inl rfl
  | cons x xs ih =>
    rcases ih (min a x) with h | h
    · rcases min_choice a x with hm | hm
      · exact Or.inl (by rw [List.foldl_cons, h, hm])
      · exact Or.inr (by rw [List.foldl_cons, h, hm]; exact List.mem_cons_self x xs)
    · exact Or.inr (List.mem_cons_of_mem x h)

theorem listMin_mem (l : List Int) (h : l ≠ []) : listMin l ∈ l := by
  cases l with
  | nil => exact absurd rfl h
  | cons x xs =>
    rcases foldl_min_mem_or xs x with h1 | h1
    · rw [listMin, h1]; exact List.mem_cons_self x xs
    · rw [listMin]; exact List.mem_cons_of_mem x h1

theorem listMin_le (l : List Int) (x : Int) (hx : x ∈ l) : listMin l ≤ x := by
  cases l with
  | nil => cases hx
  | cons y ys =>
    rcases List.mem_cons.mp hx with h | h
    · subst h; exact foldl_min_le_init ys x
    · exact foldl_min_le_mem ys y x h

/-- `chargedRequest` contains no rate-limiter interaction: its event trace
never has rate-limiter reads or writes. -/
theorem chargedRequest_rl_nil (cfg : WorkerCfg) (tmpl : TemplateEnv) (request : RequestR)
    (sr : StripeResultR) (oracle : ChargedOracle) :
    (chargedRequest cfg tmpl request sr oracle).2.rlReads = [] ∧
    (chargedRequest cfg tmpl request sr oracle).2.rlPuts = [] := by
  unfold chargedRequest
  rcases sr.session with _ | s
  · exact ⟨rfl, rfl⟩
  · rcases oracle.handlerResult with e | resp
    · exact ⟨rfl, rfl⟩
    · dsimp only
      split
      · rcases oracle.chargeResult with e | b
        · exact ⟨rfl, rfl⟩
        · exact ⟨rfl, rfl⟩
      · exact ⟨rfl, rfl⟩

/-- The rate limiter persists a new list exactly when it admits the request. -/
theorem rateLimiterFetch_didPut_eq_allowed (cfg : WorkerCfg) (stored : List Int) (now : Int) :
    (rateLimiterFetch cfg stored now).didPut = (rateLimiterFetch cfg stored now).result.allowed := by
  unfold rateLimiterFetch
  dsimp only
  split <;> rfl

/-- The charge-call trace of `chargedRequest` (src/index.js:443-459): with a
session and an attached user, a charge with the effective price is recorded
exactly on handler status 200 — whether or not the charge itself succeeds,
since the call is recorded before its outcome is awaited. -/
theorem chargedRequest_chargeCalls_eq (cfg : WorkerCfg) (tmpl : TemplateEnv)
    (request : RequestR) (sr : StripeResultR) (oracle : ChargedOracle) (session : SessionR)
    (u : UserR) (resp : HandlerResp)
    (hs : sr.session = some session) (hu : session.user = some u)
    (hh : oracle.handlerResult = Except.ok resp) :
    (chargedRequest cfg tmpl request sr oracle).2.chargeCalls =
      (if resp.status = 200
       then [{ amount := match resp.xPrice with | some p => p | none => cfg.priceCredit
               immediate := true }]
       else []) := by
  unfold chargedRequest
  rw [hs, hh]
  dsimp only
  rcases hc : oracle.chargeResult with e | b <;>
    by_cases h200 : resp.status = 200 <;>
      simp [hu, h200, hc]

/-- When the request reaches admission control — not a preflight, middleware
succeeded without a short-circuit response, and (for GET) neither a cache hit
nor the root-path shortcut applies — the whole `fetch` reduces to the
admission tail. -/
theorem workerFetch_reaches_admission (cfg : WorkerCfg) (tmpl : TemplateEnv)
    (request : RequestR) (o : FetchOracle) (sr : StripeResultR)
    (hm : o.middleware = Except.ok sr) (hresp : sr.response = none)
    (hopt : request.method ≠ "OPTIONS")
    (hmiss : request.method = "GET" →
      o.cacheGet (createCacheKey cfg.version (stripFormatSuffix request.pathname)
        request.searchParams (getResponseFormat request.accept request.pathname)) = none ∧
      stripFormatSuffix request.pathname ≠ "/") :
    workerFetch cfg tmpl request o =
      pipelineAdmission cfg tmpl request o sr
        (getResponseFormat request.accept request.pathname) := by
  unfold workerFetch
  rw [if_neg hopt, hm]
  dsimp only
  rw [hresp]
  dsimp only
  by_cases hget : request.method = "GET"
  · rw [if_pos hget, (hmiss hget).1]
    dsimp only
    rw [if_neg (hmiss hget).2]
  · rw [if_neg hget]

/-- For a resolved caller with positive balance the admission tail consults
neither the rate limiter's read nor its write path, and schedules no
background refresh. -/
theorem pipelineAdmission_positive_balance (cfg : WorkerCfg) (tmpl : TemplateEnv)
    (request : RequestR) (o : FetchOracle) (sr : StripeResultR) (s : SessionR) (u : UserR)
    (ext : String) (hsess : sr.session = some s) (huc : s.userClient = true)
    (hu : s.user = some u) (hbal : 0 < u.balance) :
    (pipelineAdmission cfg tmpl request o sr ext).events.rlReads = [] ∧
    (pipelineAdmission cfg tmpl request o sr ext).events.rlPuts = [] ∧
    (pipelineAdmission cfg tmpl request o sr ext).refreshTask = none := by
  unfold pipelineAdmission
  have hres : resolveUserClient sr.session request.cfConnectingIp =
      Except.ok (some u, jsOrS u.client_reference_id u.access_token) := by
    simp [resolveUserClient, hsess, huc, hu]
  rw [hres]
  dsimp only
  have hb : ¬ u.balance ≤ 0 := by omega
  have hbd : decide (u.balance ≤ 0) = false := by simp [hb]
  simp only [hbd, Bool.false_eq_true, if_false]
  by_cases hlt : u.balance < cfg.priceCredit
  · simp [hlt, Events.empty]
  · rcases chargedRequest_rl_nil cfg tmpl request sr o.charged with ⟨h1, h2⟩
    simp [hlt, Events.merge, h1, h2, Events.empty]

/-! ### Properties of the entry comparison and the UTF-16 view -/

theorem lexLeB_total : ∀ u v : List Nat, lexLeB u v = true ∨ lexLeB v u = true := by
  intro u
  induction u with
  | nil => intro v; left; rfl
  | cons a as ih =>
    intro v
    cases v with
    | nil => right; rfl
    | cons b bs =>
      by_cases h1 : a < b
      · left; simp [lexLeB, h1]
      · by_cases h2 : b < a
        · right; simp [lexLeB, h2]
        · have hab : a = b := by omega
          subst hab
          rcases ih bs with h | h
          · left; simpa [lexLeB] using h
          · right; simpa [lexLeB] using h

theorem lexLeB_trans : ∀ u v w : List Nat,
    lexLeB u v = true → lexLeB v w = true → lexLeB u w = true := by
  intro u
  induction u with
  | nil => intro v w _ _; rfl
  | cons a as ih =>
    intro v w h1 h2
    cases v with
    | nil => simp [lexLeB] at h1
    | cons b bs =>
      cases w with
      | nil => simp [lexLeB] at h2
      | cons c cs =>
        simp only [lexLeB] at h1 h2 ⊢
        by_cases hab : a < b
        · by_cases hbc : b < c
          · rw [if_pos (by omega : a < c)]
          · by_cases hcb : c < b
            · rw [if_neg hbc, if_pos hcb] at h2; cases h2
            · have : b = c := by omega
              subst this
              rw [if_pos hab]
        · by_cases hba : b < a
          · rw [if_neg hab, if_pos hba] at h1; cases h1
          · have : a = b := by omega
            subst this
            rw [if_neg hab, if_neg hba] at h1
            by_cases hac : a < c
            · rw [if_pos hac]
            · by_cases hca : c < a
              · rw [if_neg hac, if_pos hca] at h2; cases h2
              · have : a = c := by omega
                subst this
                rw [if_neg hac, if_neg hca] at h2 ⊢
                exact ih bs cs h1 h2

theorem lexLeB_antisymm : ∀ u v : List Nat,
    lexLeB u v = true → lexLeB v u = true → u = v := by
  intro u
  induction u with
  | nil =>
    intro v _ h2
    cases v with
    | nil => rfl
    | cons b bs => simp [lexLeB] at h2
  | cons a as ih =>
    intro v h1 h2
    cases v with
    | nil => simp [lexLeB] at h1
    | cons b bs =>
      simp only [lexLeB] at h1 h2
      by_cases hab : a < b
      · rw [if_neg (by omega : ¬ b < a), if_pos hab] at h2; cases h2
      · by_cases hba : b < a
        · rw [if_neg hab, if_pos hba] at h1; cases h1
        · have heq : a = b := by omega
          subst heq
          rw [if_neg hab, if_neg hba] at h1 h2
          rw [ih bs h1 h2]

theorem utf16Char_ne_nil (c : Char) : utf16Char c ≠ [] := by
  unfold utf16Char
  dsimp only
  split <;> simp

/-- Every character's code point is outside the surrogate range and below
`0x110000`. -/
theorem char_toNat_valid (c : Char) :
    c.toNat < 55296 ∨ (57343 < c.toNat ∧ c.toNat < 1114112) := by
  have h := c.valid
  simpa [Char.toNat, UInt32.isValidChar, Nat.isValidChar] using h

theorem utf16_flatMap_inj : ∀ l1 l2 : List Char,
    l1.flatMap utf16Char = l2.flatMap utf16Char → l1 = l2 := by
  intro l1
  induction l1 with
  | nil =>
    intro l2 h
    cases l2 with
    | nil => rfl
    | cons c cs =>
      rw [List.flatMap_nil, List.flatMap_cons] at h
      cases hc : utf16Char c with
      | nil => exact absurd hc (utf16Char_ne_nil c)
      | cons x xs => rw [hc] at h; cases h
  | cons c1 t1 ih =>
    intro l2 h
    cases l2 with
    | nil =>
      rw [List.flatMap_cons, List.flatMap_nil] at h
      cases hc : utf16Char c1 with
      | nil => exact absurd hc (utf16Char_ne_nil c1)
      | cons x xs => rw [hc] at h; cases h
    | cons c2 t2 =>
      rw [List.flatMap_cons, List.flatMap_cons] at h
      have hv1 := char_toNat_valid c1
      have hv2 := char_toNat_valid c2
      unfold utf16Char at h
      by_cases h1 : c1.toNat < 65536 <;> by_cases h2 : c2.toNat < 65536
      · rw [if_pos h1, if_pos h2] at h
        simp only [List.singleton_append, List.cons.injEq] at h
        obtain ⟨hhead, htail⟩ := h
        have hc : c1 = c2 := Char.ext (UInt32.ext hhead)
        rw [hc, ih t2 htail]
      · rw [if_pos h1, if_neg h2] at h
        simp only [List.cons_append, List.nil_append, List.cons.injEq] at h
        exact absurd h.1 (by omega)
      · rw [if_neg h1, if_pos h2] at h
        simp only [List.cons_append, List.nil_append, List.cons.injEq] at h
        exact absurd h.1 (by omega)
      · rw [if_neg h1, if_neg h2] at h
        simp only [List.cons_append, List.nil_append, List.cons.injEq] at h
        obtain ⟨e1, e2, e3⟩ := h
        have hn : c1.toNat = c2.toNat := by omega
        have hc : c1 = c2 := Char.ext (UInt32.ext hn)
        rw [hc, ih t2 e3]

/-- The UTF-16 view of a string determines the string. -/
theorem utf16Units_inj (s t : String) (h : utf16Units s = utf16Units t) : s = t := by
  cases s with
  | mk d1 =>
    cases t with
    | mk d2 =>
      rw [utf16_flatMap_inj d1 d2 h]

/-- Two sorted permutations of each other agree when the sort key is
injective on their elements (ties only happen between equal elements, so the
sorted order is unique). -/
theorem sorted_perm_eq_of_inj {α : Type} (f : α → List Nat) :
    ∀ (l1 l2 : List α), l1.Perm l2 →
      List.Sorted (fun a b => lexLeB (f a) (f b) = true) l1 →
      List.Sorted (fun a b => lexLeB (f a) (f b) = true) l2 →
      (∀ a ∈ l1, ∀ b ∈ l1, f a = f b → a = b) → l1 = l2 := by
  intro l1
  induction l1 with
  | nil =>
    intro l2 hp _ _ _
    exact (List.Perm.eq_nil hp.symm).symm
  | cons a t1 ih =>
    intro l2 hp h1 h2 hinj
    cases l2 with
    | nil => exact absurd (List.Perm.eq_nil hp) (by simp)
    | cons b t2 =>
      have hamem : a ∈ b :: t2 := hp.mem_iff.mp (List.mem_cons_self a t1)
      have hbmem : b ∈ a :: t1 := hp.symm.mem_iff.mp (List.mem_cons_self b t2)
      have hab : a = b := by
        rcases List.mem_cons.mp hamem with h | hat2
        · exact h
        · rcases List.mem_cons.mp hbmem with h | hbt1
          · exact h.symm
          · have r1 : lexLeB (f a) (f b) = true := List.rel_of_sorted_cons h1 b hbt1
            have r2 : lexLeB (f b) (f a) = true := List.rel_of_sorted_cons h2 a hat2
            exact hinj a (List.mem_cons_self a t1) b (List.mem_cons_of_mem a hbt1)
              (lexLeB_antisymm _ _ r1 r2)
      subst hab
      have hp2 : t1.Perm t2 := hp.cons_inv
      have e := ih t2 hp2 (List.sorted_cons.mp h1).2 (List.sorted_cons.mp h2).2
        (fun x hx y hy hf => hinj x (List.mem_cons_of_mem a hx) y (List.mem_cons_of_mem a hy) hf)
      rw [e]

/-! ## Claims -/

/-- C1: the claim states that any exception raised during the pipeline —
including handler invocation — is caught at the outermost boundary and turned
into a 500-class response, so that no exception escapes to the host runtime.
In the code the final `return chargedRequest(request, env, ctx, ...)`
(src/index.js:411) is *not* awaited inside the `try`, so a rejection of that
async call bypasses the `catch` (src/index.js:416-422) and settles the
promise returned to the host with the rejection itself.  Concrete evaluation:
an admitted POST by a paying caller whose handler invocation rejects with
"boom" makes the whole `fetch` reject with "boom" instead of producing a 500
response. -/
theorem c1_handler_rejection_escapes :
    (workerFetch defaultCfg tmplMain
      { method := "POST", pathname := "/x", searchParams := [], accept := none
        cfConnectingIp := none }
      { oracleBase with
          charged := { handlerResult := Except.error "boom"
                       chargeResult := Except.ok true } }).outcome
      = Except.error "boom" := by
  decide

/-- C2: the claim states that after a success response both representations
are written under cache keys built from the *normalized* (suffix-stripped)
path, so that a later GET for the same logical resource — including with an
explicit `.md`/`.html` suffix — hits the cache.  In the code the cache lookup
(src/index.js:278-285) strips the suffix, but `chargedRequest` rebuilds the
keys from the *unstripped* `url.pathname` (src/index.js:437, 463-464).
Concrete evaluation: a paying GET of `/doc.md` with a 200 handler response
writes `1:md:/doc.md` and `1:html:/doc.md`, while every lookup for that
resource uses `1:md:/doc` — which is never among the written keys, so the
entry written on the miss path can never be served. -/
theorem c2_cache_keys_not_normalized :
    ((workerFetch defaultCfg tmplMain
        { method := "GET", pathname := "/doc.md", searchParams := [], accept := none
          cfConnectingIp := none }
        oracleBase).events.puts.map CachePut.key
      = ["1:md:/doc.md", "1:html:/doc.md"]) ∧
    createCacheKey 1 (stripFormatSuffix "/doc.md") [] "md" = "1:md:/doc" ∧
    ((workerFetch defaultCfg tmplMain
        { method := "GET", pathname := "/doc.md", searchParams := [], accept := none
          cfConnectingIp := none }
        oracleBase).events.puts.map CachePut.key).contains "1:md:/doc" = false := by
  decide

/-- C3: the claim states that a handler response carrying a do-not-cache
marker (a `private` cache-control header) is never written to the cache even
on status 200.  The cache-write condition in the code is
`response.status === 200 && env.PATH_CACHE` (src/index.js:462) — it never
reads any cache-control header.  Concrete evaluation: a 200 handler response
with `Cache-Control: private` is still written under both format keys. -/
theorem c3_private_response_still_cached :
    ((chargedRequest defaultCfg tmplMain
        { method := "GET", pathname := "/data", searchParams := [], accept := none
          cfConnectingIp := none }
        srPayer
        { handlerResult := Except.ok { status := 200, xPrice := none
                                       cacheControl := some "private", body := "secret" }
          chargeResult := Except.ok true }).2.puts.map CachePut.key)
      = ["1:md:/data", "1:html:/data"] := by
  decide

/-- C4 counterexample: the claim states the charge operation is invoked
exactly when the handler response status is a success code and the caller is
an authenticated paying session.  A 201 response is success-class, yet the
code charges only on status exactly 200 (src/index.js:452): with a paying
session and a 201 handler response no charge call happens. -/
theorem c4_counterexample_201_not_charged :
    (chargedRequest defaultCfg tmplMain
      { method := "POST", pathname := "/x", searchParams := [], accept := none
        cfConnectingIp := none }
      srPayer
      { handlerResult := Except.ok { status := 201, xPrice := none
                                     cacheControl := none, body := "created" }
        chargeResult := Except.ok true }).2.chargeCalls = [] := by
  decide

/-- C5 counterexample: the claim states that a stored timestamp exactly equal
to `now - window` is *not* excluded by the pruning.  The filter keeps only
timestamps strictly greater than `now - resetWindow` (src/index.js:97-99), so
with the default one-hour window, a store `[3600000]` and `now = 7200000` the
boundary timestamp is pruned: the check admits with `remaining = 9` and
persists `[7200000]` (under the claim's reading the entry would survive,
giving `remaining = 8` and store `[3600000, 7200000]`). -/
theorem c5_counterexample_boundary_pruned :
    rateLimiterFetch defaultCfg [3600000] 7200000 =
      { result := { allowed := true, remaining := 9, resetTime := 10800000 }
        newStore := [7200000], didPut := true } := by
  decide

/-- C6 counterexample: the claim states that every authenticated caller with
balance below the price gets a 402 response *with no rate-limit data
attached*.  A caller with balance 0 first goes through the rate-limit branch
(src/index.js:365-394); when the limiter denies, the returned 402 embeds the
rate-limit data, contradicting the claim. -/
theorem c6_counterexample_rate_limit_data_attached :
    (workerFetch defaultCfg tmplMain
      { method := "GET", pathname := "/x", searchParams := [], accept := none
        cfConnectingIp := none }
      { oracleBase with
          middleware := Except.ok srZero
          rlStore := List.replicate 10 3600000
          now := 3600000 }).outcome
      = Except.ok (PipeResp.payRequired PayMsg.rateLimitExceeded
          (some { allowed := false, remaining := 0, resetTime := 7200000 }) "md") := by
  decide

/-- C7 counterexample: the claim states `createCacheKey` is invariant under
every permutation of the query multiset.  The comparator-less JS sort
compares entries by `String([key, value])`; two *distinct* entries can have
the same comma-join (`["a,b", "c"]` and `["a", "b,c"]` both stringify to
`"a,b,c"`), and a stable sort then preserves their input order, so the two
orders of the same multiset serialize to different keys. -/
theorem c7_counterexample_comma_collision :
    List.Perm [(("a,b" : String), ("c" : String)), ("a", "b,c")] [("a", "b,c"), ("a,b", "c")] ∧
    createCacheKey 1 "/p" [("a,b", "c"), ("a", "b,c")] "md" ≠
      createCacheKey 1 "/p" [("a", "b,c"), ("a,b", "c")] "md" :=
  ⟨List.Perm.swap ("a", "b,c") ("a,b", "c") [], by decide⟩

/-- C4 (amended): the charge operation is invoked exactly when the handler
response status is exactly 200 and the middleware session is present with a
user attached, and with the effective price — the numeric `X-Price` value
when present, the configured default otherwise (src/index.js:443-459); for
any other status no charge call happens.  The equation holds whether or not
the charge itself later succeeds, since the call is recorded before its
outcome is awaited. -/
theorem c4_charge_exactly_on_200 (cfg : WorkerCfg) (tmpl : TemplateEnv) (request : RequestR)
    (sr : StripeResultR) (oracle : ChargedOracle) (session : SessionR) (u : UserR)
    (resp : HandlerResp)
    (hs : sr.session = some session) (hu : session.user = some u)
    (hh : oracle.handlerResult = Except.ok resp) :
    (chargedRequest cfg tmpl request sr oracle).2.chargeCalls =
      (if resp.status = 200
       then [{ amount := match resp.xPrice with | some p => p | none => cfg.priceCredit
               immediate := true }]
       else []) :=
  chargedRequest_chargeCalls_eq cfg tmpl request sr oracle session u resp hs hu hh

/-- C4 witness: a paying session, a 200 handler response with `X-Price: 10` —
the charge is invoked with amount 10, not the configured default 1. -/
theorem c4_witness :
    (chargedRequest defaultCfg tmplMain
      { method := "POST", pathname := "/w", searchParams := [], accept := none
        cfConnectingIp := none }
      srPayer
      { handlerResult := Except.ok { status := 200, xPrice := some 10
                                     cacheControl := none, body := "ok" }
        chargeResult := Except.ok true }).2.chargeCalls
      = [{ amount := 10, immediate := true }] := by
  have h := c4_charge_exactly_on_200 defaultCfg tmplMain
    { method := "POST", pathname := "/w", searchParams := [], accept := none
      cfConnectingIp := none }
    srPayer
    { handlerResult := Except.ok { status := 200, xPrice := some 10
                                   cacheControl := none, body := "ok" }
      chargeResult := Except.ok true }
    { userClient := true
      user := some { balance := 100, client_reference_id := some "u1", access_token := "tok" } }
    { balance := 100, client_reference_id := some "u1", access_token := "tok" }
    { status := 200, xPrice := some 10, cacheControl := none, body := "ok" }
    rfl rfl rfl
  simpa using h

/-- C5 (amended): full characterization of one rate-limit check.  The counted
timestamps are exactly those strictly newer than `now - window`
(`recentRequests`, so the boundary timestamp is excluded); when the window is
full the check denies with `remaining = 0`, an unchanged store, no put, and a
reset time equal to the earliest *surviving* timestamp plus the window;
otherwise it admits, appends `now`, persists, and reports
`remaining = max - newCount` and `resetTime = now + window`. -/
theorem c5_check_characterization (cfg : WorkerCfg) (stored : List Int) (now : Int)
    (hmax : 1 ≤ cfg.freeRateLimit) :
    ((rateLimiterFetch cfg stored now).result.allowed = false ↔
      cfg.freeRateLimit ≤ (recentRequests cfg stored now).length) ∧
    (cfg.freeRateLimit ≤ (recentRequests cfg stored now).length →
      (rateLimiterFetch cfg stored now).result.remaining = 0 ∧
      (rateLimiterFetch cfg stored now).newStore = stored ∧
      (rateLimiterFetch cfg stored now).didPut = false ∧
      ∃ m, m ∈ recentRequests cfg stored now ∧
        (∀ t ∈ recentRequests cfg stored now, m ≤ t) ∧
        (rateLimiterFetch cfg stored now).result.resetTime = m + windowMs cfg) ∧
    ((recentRequests cfg stored now).length < cfg.freeRateLimit →
      (rateLimiterFetch cfg stored now).result.allowed = true ∧
      (rateLimiterFetch cfg stored now).result.remaining =
        cfg.freeRateLimit - ((recentRequests cfg stored now).length + 1) ∧
      (rateLimiterFetch cfg stored now).result.resetTime = now + windowMs cfg ∧
      (rateLimiterFetch cfg stored now).didPut = true ∧
      (rateLimiterFetch cfg stored now).newStore = recentRequests cfg stored now ++ [now]) := by
  refine ⟨?_, ?_, ?_⟩
  · by_cases hc : cfg.freeRateLimit ≤ (recentRequests cfg stored now).length <;>
      simp [rateLimiterFetch, hc]
  · intro hc
    have hne : recentRequests cfg stored now ≠ [] := by
      intro h0
      rw [h0] at hc
      simp at hc
      omega
    refine ⟨?_, ?_, ?_, listMin (recentRequests cfg stored now), listMin_mem _ hne,
      fun t ht => listMin_le _ t ht, ?_⟩ <;>
      simp [rateLimiterFetch, hc]
  · intro hc
    have hc2 : ¬ cfg.freeRateLimit ≤ (recentRequests cfg stored now).length := by omega
    refine ⟨?_, ?_, ?_, ?_, ?_⟩ <;> simp [rateLimiterFetch, hc2]

/-- C5 witness: with the default configuration, a store holding one
in-window timestamp and one boundary timestamp: only the strictly-newer entry
counts, the limit is far from reached, and the check admits with
`remaining = 8` and `resetTime = now + window`. -/
theorem c5_witness :
    (rateLimiterFetch defaultCfg [7000000, 3600000] 7200000).result.allowed = true ∧
    (rateLimiterFetch defaultCfg [7000000, 3600000] 7200000).result.remaining = 8 ∧
    (rateLimiterFetch defaultCfg [7000000, 3600000] 7200000).newStore =
      recentRequests defaultCfg [7000000, 3600000] 7200000 ++ [7200000] := by
  have h := c5_check_characterization defaultCfg [7000000, 3600000] 7200000 (by decide)
  have h3 := h.2.2 (by decide)
  exact ⟨h3.1, by simpa using h3.2.1, h3.2.2.2.2⟩

theorem filter_length_lt_of_mem_false {l : List Int} {p : Int → Bool} {x : Int}
    (hx : x ∈ l) (hpx : p x = false) : (l.filter p).length < l.length := by
  induction l with
  | nil => cases hx
  | cons y ys ih =>
    rcases List.mem_cons.mp hx with h | h
    · subst h
      rw [List.filter_cons, hpx]
      simp only [Bool.false_eq_true, if_false, List.length_cons]
      exact Nat.lt_succ_of_le (List.length_filter_le p ys)
    · rw [List.filter_cons]
      by_cases hy : p y = true
      · simp only [hy, if_true, List.length_cons]
        exact Nat.succ_lt_succ (ih h)
      · simp only [hy, if_false, List.length_cons]
        exact Nat.lt_succ_of_le (Nat.le_of_lt (ih h))

/-- C8: once the surviving timestamps fill the window (`recentRequests` count
equals the maximum), every later check is denied and leaves the stored list
unchanged for as long as the oldest surviving timestamp is still inside the
later check's window, and admits as soon as it has fallen outside. -/
theorem c8_full_window_denies_until_oldest_leaves (cfg : WorkerCfg) (stored : List Int)
    (now now2 : Int) (hmax : 1 ≤ cfg.freeRateLimit) (hle : now ≤ now2)
    (hfull : (recentRequests cfg stored now).length = cfg.freeRateLimit) :
    (now2 - windowMs cfg < listMin (recentRequests cfg stored now) →
      (rateLimiterFetch cfg stored now2).result.allowed = false ∧
      (rateLimiterFetch cfg stored now2).newStore = stored ∧
      (rateLimiterFetch cfg stored now2).didPut = false) ∧
    (listMin (recentRequests cfg stored now) ≤ now2 - windowMs cfg →
      (rateLimiterFetch cfg stored now2).result.allowed = true) := by
  have hne : recentRequests cfg stored now ≠ [] := by
    intro h0
    rw [h0] at hfull
    simp at hfull
    omega
  constructor
  · intro hmin
    have hsame : recentRequests cfg stored now2 = recentRequests cfg stored now := by
      unfold recentRequests
      apply List.filter_congr
      intro t ht
      by_cases h : now - windowMs cfg < t
      · have htS : t ∈ recentRequests cfg stored now :=
          List.mem_filter.mpr ⟨ht, by simpa using h⟩
        have h2 : now2 - windowMs cfg < t :=
          lt_of_lt_of_le hmin (listMin_le _ t htS)
        simp [h, h2]
      · have h2 : ¬ now2 - windowMs cfg < t := by omega
        simp [h, h2]
    have hcond : cfg.freeRateLimit ≤ (recentRequests cfg stored now2).length := by
      rw [hsame, hfull]
    refine ⟨?_, ?_, ?_⟩ <;> simp [rateLimiterFetch, hcond]
  · intro hmin
    have hm := listMin_mem _ hne
    have hsub : recentRequests cfg stored now2 =
        (recentRequests cfg stored now).filter (fun t => decide (now2 - windowMs cfg < t)) := by
      unfold recentRequests
      rw [List.filter_filter]
      apply List.filter_congr
      intro t ht
      by_cases h : now2 - windowMs cfg < t
      · have h1 : now - windowMs cfg < t := by omega
        simp [h, h1]
      · simp [h]
    have hlt : (recentRequests cfg stored now2).length < cfg.freeRateLimit := by
      rw [hsub]
      calc ((recentRequests cfg stored now).filter
              (fun t => decide (now2 - windowMs cfg < t))).length
          < (recentRequests cfg stored now).length :=
            filter_length_lt_of_mem_false hm (by simpa using hmin)
        _ = cfg.freeRateLimit := hfull
    have hcond : ¬ cfg.freeRateLimit ≤ (recentRequests cfg stored now2).length := by omega
    simp [rateLimiterFetch, hcond]

/-- C8 witness: a full default window (10 timestamps at 1000) keeps denying at
a later instant while the oldest entry is still inside the window, and admits
once it has left. -/
theorem c8_witness :
    ((rateLimiterFetch defaultCfg (List.replicate 10 1000) 3000).result.allowed = false ∧
      (rateLimiterFetch defaultCfg (List.replicate 10 1000) 3000).newStore =
        List.replicate 10 1000) ∧
    (rateLimiterFetch defaultCfg (List.replicate 10 1000) 3602000).result.allowed = true := by
  have h1 := c8_full_window_denies_until_oldest_leaves defaultCfg (List.replicate 10 1000)
    2000 3000 (by decide) (by decide) (by decide)
  have h2 := c8_full_window_denies_until_oldest_leaves defaultCfg (List.replicate 10 1000)
    2000 3602000 (by decide) (by decide) (by decide)
  have ha := h1.1 (by decide)
  have hb := h2.2 (by decide)
  exact ⟨⟨ha.1, ha.2.1⟩, hb⟩

/-- C7 (amended): `createCacheKey` is invariant under permutations of the
query multiset provided distinct entries have distinct comma-joins
`key ++ "," ++ value` — in particular whenever no key or value contains a
comma.  Under that proviso the comparator `String([k, v])` of the
comparator-less JS sort ties only on equal entries, so any stable sort of any
permutation produces the same list, and the serialized key coincides. -/
theorem c7_key_perm_invariant (version : Nat) (pathname ext : String)
    (l1 l2 : List (String × String)) (hperm : l1.Perm l2)
    (hinj : ∀ p ∈ l1, ∀ q ∈ l1, entryStr p = entryStr q → p = q) :
    createCacheKey version pathname l1 ext = createCacheKey version pathname l2 ext := by
  have hsort : sortEntries l1 = sortEntries l2 := by
    haveI htot : IsTotal (String × String) entryLe := ⟨fun p q => lexLeB_total _ _⟩
    haveI htr : IsTrans (String × String) entryLe := ⟨fun p q r => lexLeB_trans _ _ _⟩
    apply sorted_perm_eq_of_inj entryKey
    · exact ((List.perm_insertionSort entryLe l1).trans hperm).trans
        (List.perm_insertionSort entryLe l2).symm
    · exact List.sorted_insertionSort entryLe l1
    · exact List.sorted_insertionSort entryLe l2
    · intro p hp q hq hf
      have hp1 : p ∈ l1 := (List.perm_insertionSort entryLe l1).mem_iff.mp hp
      have hq1 : q ∈ l1 := (List.perm_insertionSort entryLe l1).mem_iff.mp hq
      exact hinj p hp1 q hq1 (utf16Units_inj _ _ hf)
  unfold createCacheKey
  rw [hsort]

/-- C7 witness: two comma-free entries in either order produce the same
key. -/
theorem c7_witness :
    createCacheKey 1 "/p" [("a", "1"), ("b", "2")] "md" =
      createCacheKey 1 "/p" [("b", "2"), ("a", "1")] "md" :=
  c7_key_perm_invariant 1 "/p" "md" [("a", "1"), ("b", "2")] [("b", "2"), ("a", "1")]
    (List.Perm.swap ("b", "2") ("a", "1") []) (by decide)

/-- C9 counterexample: the claim states the rate-limit window store is
*mutated* on every admission check that reaches admission control for an
unauthenticated caller.  On a denied check the durable object returns before
`storage.put` (src/index.js:102-113): the store is read but not written. -/
theorem c9_counterexample_denied_check_no_put :
    ((workerFetch defaultCfg tmplMain
        { method := "GET", pathname := "/y", searchParams := [], accept := none
          cfConnectingIp := some "9.9.9.9" }
        { oracleBase with
            middleware := Except.ok { response := none, session := none }
            rlStore := List.replicate 10 3600000
            now := 3600000 }).events.rlReads = ["9.9.9.9"]) ∧
    (workerFetch defaultCfg tmplMain
        { method := "GET", pathname := "/y", searchParams := [], accept := none
          cfConnectingIp := some "9.9.9.9" }
        { oracleBase with
            middleware := Except.ok { response := none, session := none }
            rlStore := List.replicate 10 3600000
            now := 3600000 }).events.rlPuts = [] := by
  decide

/-- C6 (amended): for an authenticated caller with balance below the price,
once the request reaches admission control the handler is never invoked, no
refresh is scheduled, and the pipeline returns a 402 payment-required
response: the rate-limit-exceeded one, carrying the rate-limit data, exactly
when the balance is non-positive and the limiter denies; the
insufficient-balance one, with no rate-limit data, otherwise. -/
theorem c6_amended (cfg : WorkerCfg) (tmpl : TemplateEnv) (request : RequestR)
    (o : FetchOracle) (sr : StripeResultR) (s : SessionR) (u : UserR)
    (hm : o.middleware = Except.ok sr) (hresp : sr.response = none)
    (hsess : sr.session = some s) (huc : s.userClient = true) (hu : s.user = some u)
    (hbal : u.balance < cfg.priceCredit)
    (hcid : jsOrS u.client_reference_id u.access_token ≠ "")
    (hopt : request.method ≠ "OPTIONS")
    (hmiss : request.method = "GET" →
      o.cacheGet (createCacheKey cfg.version (stripFormatSuffix request.pathname)
        request.searchParams (getResponseFormat request.accept request.pathname)) = none ∧
      stripFormatSuffix request.pathname ≠ "/") :
    (workerFetch cfg tmpl request o).events.handlerCalls = 0 ∧
    (workerFetch cfg tmpl request o).refreshTask = none ∧
    (workerFetch cfg tmpl request o).outcome =
      (if u.balance ≤ 0 ∧ (rateLimiterFetch cfg o.rlStore o.now).result.allowed = false
       then Except.ok (PipeResp.payRequired PayMsg.rateLimitExceeded
              (some (rateLimiterFetch cfg o.rlStore o.now).result)
              (getResponseFormat request.accept request.pathname))
       else Except.ok (PipeResp.payRequired PayMsg.insufficientBalance none
              (getResponseFormat request.accept request.pathname))) := by
  rw [workerFetch_reaches_admission cfg tmpl request o sr hm hresp hopt hmiss]
  unfold pipelineAdmission
  have hres : resolveUserClient sr.session request.cfConnectingIp =
      Except.ok (some u, jsOrS u.client_reference_id u.access_token) := by
    simp [resolveUserClient, hsess, huc, hu]
  rw [hres]
  dsimp only
  by_cases hb : u.balance ≤ 0
  · have hbd : decide (u.balance ≤ 0) = true := by simp [hb]
    simp only [hbd, if_true]
    rw [if_neg hcid]
    by_cases hal : (rateLimiterFetch cfg o.rlStore o.now).result.allowed = false
    · rw [if_pos hal]
      exact ⟨rfl, rfl, by rw [if_pos (And.intro hb hal)]⟩
    · rw [if_neg hal]
      rw [if_pos hbal]
      refine ⟨rfl, rfl, ?_⟩
      rw [if_neg (show ¬(u.balance ≤ 0 ∧
        (rateLimiterFetch cfg o.rlStore o.now).result.allowed = false) from fun h => hal h.2)]
  · have hbd : decide (u.balance ≤ 0) = false := by simp [hb]
    simp only [hbd, Bool.false_eq_true, if_false]
    rw [if_pos hbal]
    refine ⟨rfl, rfl, ?_⟩
    rw [if_neg (show ¬(u.balance ≤ 0 ∧
      (rateLimiterFetch cfg o.rlStore o.now).result.allowed = false) from fun h => hb h.1)]

/-- C6 witness: an authenticated caller with balance 0 (below the default
price 1), cache miss, rate limiter admitting — the pipeline answers with the
insufficient-balance 402 carrying no rate-limit data, without invoking the
handler. -/
theorem c6_witness :
    (workerFetch defaultCfg tmplMain
      { method := "GET", pathname := "/w", searchParams := [], accept := none
        cfConnectingIp := none }
      { oracleBase with middleware := Except.ok srZero }).events.handlerCalls = 0 ∧
    (workerFetch defaultCfg tmplMain
      { method := "GET", pathname := "/w", searchParams := [], accept := none
        cfConnectingIp := none }
      { oracleBase with middleware := Except.ok srZero }).outcome =
      Except.ok (PipeResp.payRequired PayMsg.insufficientBalance none "md") := by
  have h := c6_amended defaultCfg tmplMain
    { method := "GET", pathname := "/w", searchParams := [], accept := none
      cfConnectingIp := none }
    { oracleBase with middleware := Except.ok srZero }
    srZero
    { userClient := true
      user := some { balance := 0, client_reference_id := some "u1", access_token := "tok" } }
    { balance := 0, client_reference_id := some "u1", access_token := "tok" }
    rfl rfl rfl rfl rfl (by decide) (by decide) (by decide)
    (fun _ => ⟨rfl, by decide⟩)
  refine ⟨h.1, ?_⟩
  have h3 := h.2.2
  simpa using h3

/-- C9 (amended): (a) when the resolved caller has a positive balance, the
rate-limiter store is never read nor written on any path (and the background
refresh, when scheduled, touches it neither); (b) when an unauthenticated or
non-positive-balance caller reaches admission control, the store is read
exactly once and written exactly when the check admits the request — a
denied check leaves it unchanged. -/
theorem c9_amended (cfg : WorkerCfg) (tmpl : TemplateEnv) (request : RequestR)
    (o : FetchOracle) (sr : StripeResultR) (hm : o.middleware = Except.ok sr) :
    ((∀ s u, sr.response = none → sr.session = some s → s.userClient = true →
        s.user = some u → 0 < u.balance →
        (workerFetch cfg tmpl request o).events.rlReads = [] ∧
        (workerFetch cfg tmpl request o).events.rlPuts = [] ∧
        (∀ p, (workerFetch cfg tmpl request o).refreshTask = some p →
          p.2.rlReads = [] ∧ p.2.rlPuts = [])) ∧
      (∀ uopt cid, sr.response = none →
        resolveUserClient sr.session request.cfConnectingIp = Except.ok (uopt, cid) →
        (match uopt with | some u => u.balance ≤ 0 | none => True) →
        cid ≠ "" →
        request.method ≠ "OPTIONS" →
        (request.method = "GET" →
          o.cacheGet (createCacheKey cfg.version (stripFormatSuffix request.pathname)
            request.searchParams (getResponseFormat request.accept request.pathname)) = none ∧
          stripFormatSuffix request.pathname ≠ "/") →
        (workerFetch cfg tmpl request o).events.rlReads = [cid] ∧
        (workerFetch cfg tmpl request o).events.rlPuts =
          (if (rateLimiterFetch cfg o.rlStore o.now).result.allowed = true
           then [(cid, (rateLimiterFetch cfg o.rlStore o.now).newStore)] else []))) := by
  have hput := rateLimiterFetch_didPut_eq_allowed cfg o.rlStore o.now
  constructor
  · intro s u hresp hsess huc hu hbal
    by_cases hopt : request.method = "OPTIONS"
    · unfold workerFetch
      rw [if_pos hopt]
      exact ⟨rfl, rfl, fun p hp => nomatch hp⟩
    · unfold workerFetch
      rw [if_neg hopt, hm]
      dsimp only
      rw [hresp]
      dsimp only
      by_cases hget : request.method = "GET"
      · rw [if_pos hget]
        rcases hcache : o.cacheGet (createCacheKey cfg.version
            (stripFormatSuffix request.pathname) request.searchParams
            (getResponseFormat request.accept request.pathname)) with _ | vm
        · dsimp only
          by_cases hroot : stripFormatSuffix request.pathname = "/"
          · rw [if_pos hroot]
            exact ⟨rfl, rfl, fun p hp => nomatch hp⟩
          · rw [if_neg hroot]
            rcases pipelineAdmission_positive_balance cfg tmpl request o sr s u
              (getResponseFormat request.accept request.pathname) hsess huc hu hbal with
              ⟨h1, h2, h3⟩
            exact ⟨h1, h2, fun p hp => by rw [h3] at hp; cases hp⟩
        · rcases vm with ⟨v, mts⟩
          dsimp only
          by_cases hv : v = ""
          · rw [if_pos hv]
            dsimp only
            by_cases hroot : stripFormatSuffix request.pathname = "/"
            · rw [if_pos hroot]
              exact ⟨rfl, rfl, fun p hp => nomatch hp⟩
            · rw [if_neg hroot]
              rcases pipelineAdmission_positive_balance cfg tmpl request o sr s u
                (getResponseFormat request.accept request.pathname) hsess huc hu hbal with
                ⟨h1, h2, h3⟩
              exact ⟨h1, h2, fun p hp => by rw [h3] at hp; cases hp⟩
          · rw [if_neg hv]
            refine ⟨rfl, rfl, fun p hp => ?_⟩
            rw [hsess] at hp
            dsimp only at hp
            split at hp
            · rcases hsrs : o.shouldRefreshStatus with _ | st
              · rw [hsrs] at hp
                cases hp
              · rw [hsrs] at hp
                dsimp only at hp
                split at hp
                · rcases Option.some.inj hp with rfl?
                  exact (Option.some.inj hp) ▸ chargedRequest_rl_nil cfg tmpl request sr o.charged
                · cases hp
            · cases hp
      · rw [if_neg hget]
        rcases pipelineAdmission_positive_balance cfg tmpl request o sr s u
          (getResponseFormat request.accept request.pathname) hsess huc hu hbal with
          ⟨h1, h2, h3⟩
        exact ⟨h1, h2, fun p hp => by rw [h3] at hp; cases hp⟩
  · intro uopt cid hresp hres hblz hcid hopt hmiss
    rw [workerFetch_reaches_admission cfg tmpl request o sr hm hresp hopt hmiss]
    unfold pipelineAdmission
    rw [hres]
    dsimp only
    rcases chargedRequest_rl_nil cfg tmpl request sr o.charged with ⟨hn1, hn2⟩
    cases uopt with
    | none =>
      simp only [if_true]
      rw [if_neg hcid]
      by_cases hal : (rateLimiterFetch cfg o.rlStore o.now).result.allowed = false
      · rw [if_pos hal]
        exact ⟨rfl, by rw [hput]⟩
      · rw [if_neg hal]
        constructor <;> simp [Events.merge, hn1, hn2, hput]
    | some u =>
      have hbd : decide (u.balance ≤ 0) = true := by simpa using hblz
      simp only [hbd, if_true]
      rw [if_neg hcid]
      by_cases hal : (rateLimiterFetch cfg o.rlStore o.now).result.allowed = false
      · rw [if_pos hal]
        exact ⟨rfl, by rw [hput]⟩
      · rw [if_neg hal]
        by_cases hlt : u.balance < cfg.priceCredit
        · rw [if_pos hlt]
          exact ⟨rfl, by rw [hput]⟩
        · rw [if_neg hlt]
          constructor <;> simp [Events.merge, hn1, hn2, hput]

/-- C9 witness: an anonymous caller with an empty window store — the check
reads the store once and, since it admits, persists the new one-element
list. -/
theorem c9_witness :
    (workerFetch defaultCfg tmplMain
      { method := "GET", pathname := "/z", searchParams := [], accept := none
        cfConnectingIp := some "7.7.7.7" }
      { oracleBase with
          middleware := Except.ok { response := none, session := none } }).events.rlReads
      = ["7.7.7.7"] ∧
    (workerFetch defaultCfg tmplMain
      { method := "GET", pathname := "/z", searchParams := [], accept := none
        cfConnectingIp := some "7.7.7.7" }
      { oracleBase with
          middleware := Except.ok { response := none, session := none } }).events.rlPuts
      = [("7.7.7.7", [1000])] := by
  have h := (c9_amended defaultCfg tmplMain
    { method := "GET", pathname := "/z", searchParams := [], accept := none
      cfConnectingIp := some "7.7.7.7" }
    { oracleBase with
        middleware := Except.ok { response := none, session := none } }
    { response := none, session := none } rfl).2
    none "7.7.7.7" rfl (by decide) trivial (by decide) (by decide)
    (fun _ => ⟨rfl, by decide⟩)
  refine ⟨h.1, ?_⟩
  have h2 := h.2
  simpa using h2

/-- C10: on a cache hit for an authenticated payer with positive balance and
a refresh-signalling `shouldRefresh`, the scheduled background work is
exactly `chargedRequest`: it performs no admission control (no rate-limiter
read or write anywhere in the request), and for a 200 handler response it
invokes the charge with the effective price — there is no hypothesis
relating the balance to the price, so this holds even when the balance is
below the configured price-per-request. -/
theorem c10_refresh_no_admission_control (cfg : WorkerCfg) (tmpl : TemplateEnv)
    (request : RequestR) (o : FetchOracle) (sr : StripeResultR) (s : SessionR) (u : UserR)
    (v : String) (mts : Int) (st : Nat) (hr : HandlerResp)
    (hmethod : request.method = "GET")
    (hm : o.middleware = Except.ok sr) (hresp : sr.response = none)
    (hsess : sr.session = some s) (huc : s.userClient = true) (hu : s.user = some u)
    (hbal : 0 < u.balance)
    (hhit : o.cacheGet (createCacheKey cfg.version (stripFormatSuffix request.pathname)
      request.searchParams (getResponseFormat request.accept request.pathname)) = some (v, mts))
    (hv : v ≠ "")
    (hsrs : o.shouldRefreshStatus = some st) (hok : 200 ≤ st ∧ st < 300)
    (hh : o.charged.handlerResult = Except.ok hr) :
    (workerFetch cfg tmpl request o).refreshTask =
      some (chargedRequest cfg tmpl request sr o.charged) ∧
    (workerFetch cfg tmpl request o).events = Events.empty ∧
    (chargedRequest cfg tmpl request sr o.charged).2.rlReads = [] ∧
    (chargedRequest cfg tmpl request sr o.charged).2.rlPuts = [] ∧
    (hr.status = 200 →
      (chargedRequest cfg tmpl request sr o.charged).2.chargeCalls =
        [{ amount := match hr.xPrice with | some p => p | none => cfg.priceCredit
           immediate := true }]) := by
  have hne : request.method ≠ "OPTIONS" := by
    rw [hmethod]
    decide
  have hbne : u.balance ≠ 0 := by omega
  unfold workerFetch
  rw [if_neg hne, hm]
  dsimp only
  rw [hresp]
  dsimp only
  rw [if_pos hmethod, hhit]
  dsimp only
  rw [if_neg hv]
  refine ⟨?_, rfl, (chargedRequest_rl_nil cfg tmpl request sr o.charged).1,
    (chargedRequest_rl_nil cfg tmpl request sr o.charged).2, ?_⟩
  · rw [hsess]
    dsimp only
    rw [hu]
    have hcond : (s.userClient && (decide (u.balance ≠ 0) && decide (0 < u.balance))) = true := by
      simp [huc, hbne, hbal]
    rw [hcond]
    rw [hsrs]
    dsimp only
    rw [if_pos hok]
    rfl
  · intro h200
    rw [chargedRequest_chargeCalls_eq cfg tmpl request sr o.charged s u hr hsess hu hh]
    rw [if_pos h200]

/-- C10 witness: price 5, balance 1 (below the price): the cache hit
schedules the background `chargedRequest`, which charges 5 for the 200
handler response without any rate-limiter interaction. -/
theorem c10_witness :
    (workerFetch { defaultCfg with priceCredit := 5 } tmplMain
      ⟨"GET", "/x", [], none, none⟩
      ⟨Except.ok ⟨none, some ⟨true, some ⟨1, some "u1", "tok"⟩⟩⟩
      , fun k => if k = "1:md:/x" then some ("cached", 7) else none
      , some 200, [], 1000
      , ⟨Except.ok ⟨200, none, none, "fresh"⟩, Except.ok true⟩⟩).refreshTask =
      some (chargedRequest { defaultCfg with priceCredit := 5 } tmplMain
        ⟨"GET", "/x", [], none, none⟩
        ⟨none, some ⟨true, some ⟨1, some "u1", "tok"⟩⟩⟩
        ⟨Except.ok ⟨200, none, none, "fresh"⟩, Except.ok true⟩) ∧
    (chargedRequest { defaultCfg with priceCredit := 5 } tmplMain
      ⟨"GET", "/x", [], none, none⟩
      ⟨none, some ⟨true, some ⟨1, some "u1", "tok"⟩⟩⟩
      ⟨Except.ok ⟨200, none, none, "fresh"⟩, Except.ok true⟩).2.chargeCalls
      = [{ amount := 5, immediate := true }] := by
  have h := c10_refresh_no_admission_control { defaultCfg with priceCredit := 5 } tmplMain
    ⟨"GET", "/x", [], none, none⟩
    ⟨Except.ok ⟨none, some ⟨true, some ⟨1, some "u1", "tok"⟩⟩⟩
    , fun k => if k = "1:md:/x" then some ("cached", 7) else none
    , some 200, [], 1000
    , ⟨Except.ok ⟨200, none, none, "fresh"⟩, Except.ok true⟩⟩
    ⟨none, some ⟨true, some ⟨1, some "u1", "tok"⟩⟩⟩
    ⟨true, some ⟨1, some "u1", "tok"⟩⟩
    ⟨1, some "u1", "tok"⟩
    "cached" 7 200
    ⟨200, none, none, "fresh"⟩
    rfl rfl rfl rfl rfl rfl (by decide) (by decide) (by decide) rfl (by decide) rfl
  exact ⟨h.1, by simpa using h.2.2.2.2 rfl⟩

end UA402
